import Mathlib

/-!
Verification development for the monitoring core of the memphis broker
(`server/memphis_handlers_monitoring.go` and the `models` package).

The Go code is shallowly embedded: pure computations become Lean functions,
stateful sessions become functions of an explicit environment (which external
calls fail, which messages arrive before the wall-clock timer fires), machine
integers are `Nat`/`Int` with explicit wrap-around where overflow can occur,
and Go panics (out-of-range slice indexing) are modelled by `Option`.
-/

namespace Memphis

/-- 2^64, the modulus of Go's `uint64` arithmetic. -/
def U64 : Nat := 2 ^ 64

/-- Wrap an unbounded integer into Go `int64` two's-complement range
(`[-2^63, 2^63)`); this is the value an `int64` variable holds after an
overflowing operation. -/
def wrap64 (z : Int) : Int := (z + 2 ^ 63) % 2 ^ 64 - 2 ^ 63

/-- Go `int64` addition (`+=` on `int64` fields wraps on overflow). -/
def add64 (a b : Int) : Int := wrap64 (a + b)

/-- Go `uint64` subtraction `a - b` for `a, b < 2^64` (wraps around zero). -/
def u64Sub (a b : Nat) : Nat := (a + (U64 - b % U64)) % U64

/-- `StreamInfo.State` as used by the monitoring handlers: message count,
first and last sequence of the underlying stream (`uint64` values). -/
structure StreamState where
  Msgs : Nat
  FirstSeq : Nat
  LastSeq : Nat
deriving DecidableEq

/-- `models.BrokerThroughput` as used by `GetBrokersThroughputs`
(`brokerThroughput.ReadMap[tenantName]` / `WriteMap[tenantName]`): the
per-tenant read/write byte maps are `map[string]int64`.  The `models` file in
this snapshot predates the map fields, so the field types are modelled from
the spec's data model (`read_bytes_by_tenant: map<text,int64>`); a Go map is
embedded as an association list with unique keys. -/
structure BrokerThroughput where
  Name : String
  ReadMap : List (String × Int)
  WriteMap : List (String × Int)
deriving DecidableEq

/-- Go map read `m[k]` for a `map[string]int64`: the stored value, or the zero
value `0` when the key is absent. -/
def mapGet (m : List (String × Int)) (k : String) : Int :=
  ((m.find? (fun p => p.1 == k)).map (fun p => p.2)).getD 0

/-- `server.StoredMsg`.  The payload (`Data []byte`) is instantiated per
pipeline with its parsed form: `Option BrokerThroughput` for the throughput
stream (with `none` for bytes `json.Unmarshal` rejects) and `String` for the
syslog stream (read with `string(msg.Data)`).  `Time` is the nanosecond
timestamp as a natural number. -/
structure StoredMsg (δ : Type) where
  Subject : String
  Sequence : Nat
  Data : δ
  Time : Nat
deriving DecidableEq

abbrev ThroughputMsg := StoredMsg (Option BrokerThroughput)

/-- `models.ThroughputReadResponse` (`Timestamp time.Time`, `Read int64`);
the zero `time.Time` is modelled as timestamp `0`. -/
structure ThroughputReadResponse where
  Timestamp : Nat
  Read : Int
deriving DecidableEq

/-- `models.ThroughputWriteResponse`. -/
structure ThroughputWriteResponse where
  Timestamp : Nat
  Write : Int
deriving DecidableEq

/-- `models.BrokerThroughputResponse`. -/
structure BrokerThroughputResponse where
  Name : String
  Read : List ThroughputReadResponse
  Write : List ThroughputWriteResponse
deriving DecidableEq

/-- The comparator of the `sort.Slice(msgs, ...)` call in
`GetBrokersThroughputs` (`msgs[i].Time.Before(msgs[j].Time)`, old to new).
`sort.Slice` only guarantees a permutation ordered by the comparator; the
embedding uses the non-strict key order with `List.insertionSort` as one
compliant implementation. -/
def timeLe {δ : Type} (a b : StoredMsg δ) : Prop := a.Time ≤ b.Time

instance {δ : Type} : DecidableRel (@timeLe δ) := fun a b => Nat.decLe a.Time b.Time

instance {δ : Type} : IsTotal (StoredMsg δ) timeLe := ⟨fun a b => Nat.le_total a.Time b.Time⟩

instance {δ : Type} : IsTrans (StoredMsg δ) timeLe := ⟨fun _ _ _ h h2 => Nat.le_trans h h2⟩

/-- One iteration of the grouping loop of `GetBrokersThroughputs`
(lines 178-193): ensure `m[bt.Name]` exists, then append the sample
`(msg.Time, bt.ReadMap[tenant])` to its read series and symmetrically for
write.  The Go map keyed by broker name is an association list in insertion
order (keys stay unique because insertion only happens on a missing key). -/
def upsertSample (tenant : String) (bt : BrokerThroughput) (ts : Nat) :
    List (String × BrokerThroughputResponse) → List (String × BrokerThroughputResponse)
  | [] =>
    [(bt.Name,
      { Name := bt.Name,
        Read := [{ Timestamp := ts, Read := mapGet bt.ReadMap tenant }],
        Write := [{ Timestamp := ts, Write := mapGet bt.WriteMap tenant }] })]
  | (k, v) :: rest =>
    if k = bt.Name then
      (k, { v with
            Read := v.Read ++ [{ Timestamp := ts, Read := mapGet bt.ReadMap tenant }],
            Write := v.Write ++ [{ Timestamp := ts, Write := mapGet bt.WriteMap tenant }] }) :: rest
    else
      (k, v) :: upsertSample tenant bt ts rest

/-- The unmarshal-and-group loop of `GetBrokersThroughputs` (lines 170-194):
each message's payload is decoded (`json.Unmarshal`; failure aborts with the
error) and folded into the per-broker map. -/
def buildMap (tenant : String) :
    List ThroughputMsg → List (String × BrokerThroughputResponse) →
    Except String (List (String × BrokerThroughputResponse))
  | [], m => .ok m
  | msg :: rest, m =>
    match msg.Data with
    | none => .error "json unmarshal error"
    | some bt => buildMap tenant rest (upsertSample tenant bt msg.Time m)

/-- The inner accumulation of the `total` loop (lines 201-204):
`totalRead[i].Timestamp = r.Timestamp; totalRead[i].Read += r.Read` for the
successive entries `r` of one broker's read series, starting at index `i = 0`.
`none` models the panic Go raises when the series is longer than the `total`
slice (index out of range). -/
def accRead : List ThroughputReadResponse → List ThroughputReadResponse →
    Option (List ThroughputReadResponse)
  | total, [] => some total
  | [], _ :: _ => none
  | t :: total, r :: rest =>
    (accRead total rest).map
      (fun tl => { Timestamp := r.Timestamp, Read := add64 t.Read r.Read } :: tl)

/-- Same as `accRead` for the write side (lines 205-208). -/
def accWrite : List ThroughputWriteResponse → List ThroughputWriteResponse →
    Option (List ThroughputWriteResponse)
  | total, [] => some total
  | [], _ :: _ => none
  | t :: total, w :: rest =>
    (accWrite total rest).map
      (fun tl => { Timestamp := w.Timestamp, Write := add64 t.Write w.Write } :: tl)

/-- The `total` accumulation loop over all brokers (lines 199-209). -/
def totalsAux : List BrokerThroughputResponse →
    List ThroughputReadResponse × List ThroughputWriteResponse →
    Option (List ThroughputReadResponse × List ThroughputWriteResponse)
  | [], acc => some acc
  | row :: rest, (tr, tw) =>
    match accRead tr row.Read with
    | none => none
    | some tr1 =>
      match accWrite tw row.Write with
      | none => none
      | some tw1 => totalsAux rest (tr1, tw1)

/-- Lines 197-209: two zero-initialised slices of length
`W = ws_updates_interval_sec`, filled by iterating every broker's series. -/
def totals (W : Nat) (rows : List BrokerThroughputResponse) :
    Option (List ThroughputReadResponse × List ThroughputWriteResponse) :=
  totalsAux rows
    (List.replicate W { Timestamp := 0, Read := 0 },
     List.replicate W { Timestamp := 0, Write := 0 })

/-- The pure aggregation pipeline of `GetBrokersThroughputs` applied to the
fetched messages (lines 166-216): sort old-to-new, group by broker and project
onto the caller's tenant, synthesise the `total` row of length `W` and prepend
it.  The outer `Option` is `none` when the `totalRead[i]`/`totalWrite[i]`
write panics (a broker with more than `W` samples); the `Except` carries the
`json.Unmarshal` error return. -/
def aggregateThroughputs (W : Nat) (tenant : String) (msgs : List ThroughputMsg) :
    Option (Except String (List BrokerThroughputResponse)) :=
  let sorted := List.insertionSort timeLe msgs
  match buildMap tenant sorted [] with
  | .error e => some (.error e)
  | .ok m =>
    let rows := m.map (fun p => p.2)
    match totals W rows with
    | none => none
    | some (tr, tw) =>
      some (.ok ({ Name := "total", Read := tr, Write := tw } :: rows))

/-- What happened to the ephemeral durable consumer of one stream-read
attempt: whether `memphisAddConsumer` succeeded (the consumer exists),
whether the reply subscription was unsubscribed on exit, and the delay (ms)
of the `time.AfterFunc` that schedules `memphisRemoveConsumer`, when one was
installed. -/
structure SessionTrace where
  consumerCreated : Bool
  unsubscribed : Bool
  removeScheduledAfterMs : Option Nat
deriving DecidableEq

/-- Environment of one `GetBrokersThroughputs` call: the result of
`memphisStreamInfo`, the errors (if any) of `memphisAddConsumer` and
`subscribeOnAcc`, and the messages delivered on the reply subject before the
300 ms timer fires. -/
structure ThroughputEnv where
  streamInfo : Except String StreamState
  addConsumerErr : Option String
  subscribeErr : Option String
  arrivals : List ThroughputMsg

/-- `GetBrokersThroughputs` (lines 90-217) as a function of its environment.
First component: `none` models the out-of-range panic in the `total` loop,
`some` the Go `(throughputs, err)` return.  Second component: the fate of the
durable consumer created for the session.  The receive loop runs `amount`
iterations, each taking the next arrival or, when none is left before the
timer fires, jumping to `cleanup`; the error of
`sendInternalAccountMsgWithReply` is ignored by the source. -/
def GetBrokersThroughputs (W : Nat) (tenant : String) (env : ThroughputEnv) :
    Option (Except String (List BrokerThroughputResponse)) × SessionTrace :=
  match env.streamInfo with
  | .error e => (some (.error e), ⟨false, false, none⟩)
  | .ok st =>
    let amount := st.Msgs
    let _startSeq := if st.FirstSeq > 0 then st.FirstSeq else 1
    match env.addConsumerErr with
    | some e => (some (.error e), ⟨false, false, none⟩)
    | none =>
      match env.subscribeErr with
      | some e =>
        -- lines 143-145: the consumer was created, but this return path
        -- performs no unsubscribe and schedules no removal.
        (some (.error e), ⟨true, false, none⟩)
      | none =>
        let received := env.arrivals.take amount
        (aggregateThroughputs W tenant received, ⟨true, true, some 500⟩)

/-- Lines 950-968 of `GetSystemLogs`: cap `amount` by the stream's message
count and select the start sequence per mode; returns
`(startSeq, amount, lastKnownSeq)` after the branch, with `uint64`
wrap-around arithmetic made explicit. -/
def computeStartAmount (st : StreamState) (amount0 lastKnownSeq0 : Nat)
    (fromLast getAll : Bool) : Nat × Nat × Nat :=
  let amount := min st.Msgs amount0
  let startSeq := (u64Sub lastKnownSeq0 amount + 1) % U64
  if getAll then (st.FirstSeq, st.Msgs, lastKnownSeq0)
  else if fromLast then
    let s := (u64Sub st.LastSeq amount + 1) % U64
    -- handle uint wrap around
    let s := if amount ≥ st.LastSeq then 1 else s
    (s, amount, st.LastSeq)
  else if amount ≥ lastKnownSeq0 then (1, lastKnownSeq0, lastKnownSeq0)
  else (startSeq, amount, lastKnownSeq0)

/-- `models.Log`.  `MessageSeq` is `int(msg.Sequence)`; the Go field `Type`
is rendered `LogType` because `Type` is a Lean keyword. -/
structure Log where
  MessageSeq : Nat
  LogType : String
  Data : String
  Source : String
  TimeSent : Nat
deriving DecidableEq

/-- The NATS token separator used to split syslog subjects (`tsep`). -/
def tsep : String := "."

/-- Lines 1043-1067: split the subject on `tsep` and derive `(source, type)`
per token count.  `strings.Split` always yields at least one token; with a
single token the else-branch indexes `splittedSubj[1]`/`splittedSubj[3]`
out of range, which panics in Go — modelled by `none`. -/
def parseLogMsg (msg : StoredMsg String) : Option Log :=
  let toks := msg.Subject.splitOn tsep
  if toks.length = 2 then
    some { MessageSeq := msg.Sequence, LogType := toks.getD 1 "", Data := msg.Data,
           Source := "broker", TimeSent := msg.Time }
  else if toks.length = 3 then
    some { MessageSeq := msg.Sequence, LogType := toks.getD 2 "", Data := msg.Data,
           Source := toks.getD 1 "", TimeSent := msg.Time }
  else if 4 ≤ toks.length then
    some { MessageSeq := msg.Sequence, LogType := toks.getD 3 "", Data := msg.Data,
           Source := toks.getD 1 "", TimeSent := msg.Time }
  else none

/-- Ascending comparator of the final `sort.Slice` in `getAll` mode
(`resMsgs[i].MessageSeq < resMsgs[j].MessageSeq`); embedded as the
non-strict key order, one implementation compliant with `sort.Slice`. -/
def seqLeAsc (a b : Log) : Prop := a.MessageSeq ≤ b.MessageSeq

/-- Descending comparator of the final `sort.Slice` in the other modes. -/
def seqLeDesc (a b : Log) : Prop := b.MessageSeq ≤ a.MessageSeq

instance : DecidableRel seqLeAsc := fun a b => Nat.decLe a.MessageSeq b.MessageSeq

instance : DecidableRel seqLeDesc := fun a b => Nat.decLe b.MessageSeq a.MessageSeq

/-- Lines 1038-1082: convert the received messages to `models.Log` records
(`none` when a malformed subject panics), then sort ascending for `getAll`
and descending-truncated-to-100 otherwise. -/
def postprocessLogs (getAll : Bool) (msgs : List (StoredMsg String)) : Option (List Log) := do
  let resMsgs ← msgs.mapM parseLogMsg
  if getAll then
    pure (List.insertionSort seqLeAsc resMsgs)
  else
    pure ((List.insertionSort seqLeDesc resMsgs).take 100)

/-- Result of a `GetSystemLogs` run: the Go return value (`ok`/`err`), a
panic in subject parsing, or exhaustion of the modelled recursion fuel
(the source recursion has no such bound). -/
inductive LogsResult where
  | ok (logs : List Log)
  | err (e : String)
  | panic
  | fuelOut
deriving DecidableEq

/-- Environment of one `GetSystemLogs` call, indexed by refetch attempt:
which external calls fail on each attempt and which messages arrive before
that attempt's timer fires.  The stream state returned by
`memphisStreamInfo` is modelled as stable across the refetch recursion. -/
structure LogsEnv where
  streamInfo : Except String StreamState
  addConsumerErr : Nat → Option String
  subscribeErr : Nat → Option String
  arrivals : Nat → List (StoredMsg String)

/-- `GetSystemLogs` (lines 935-1085) as a function of its environment.
`fuel` bounds the adaptive-refetch recursion of line 1036 (the source has no
bound; `.fuelOut` marks a run that would recurse deeper).  Returns the result
together with one `SessionTrace` per attempt, oldest first.  As in the
source, a subscribe failure (lines 1013-1015) returns without unsubscribing
or scheduling removal of the consumer created at line 982. -/
def GetSystemLogs (env : LogsEnv) :
    Nat → Nat → Nat → Bool → Nat → Bool → LogsResult × List SessionTrace
  | 0, _, _, _, _, _ => (.fuelOut, [])
  | fuel + 1, attempt, amount0, fromLast, lastKnownSeq0, getAll =>
    match env.streamInfo with
    | .error e => (.err e, [])
    | .ok st =>
      let sal := computeStartAmount st amount0 lastKnownSeq0 fromLast getAll
      let startSeq := sal.1
      let amount := sal.2.1
      let lastKnownSeq := sal.2.2
      match env.addConsumerErr attempt with
      | some e => (.err e, [⟨false, false, none⟩])
      | none =>
        match env.subscribeErr attempt with
        | some e => (.err e, [⟨true, false, none⟩])
        | none =>
          let received := (env.arrivals attempt).take amount
          if received.length < amount ∧ st.Msgs > amount ∧ st.FirstSeq < startSeq then
            let rec1 := GetSystemLogs env fuel (attempt + 1) ((2 * amount) % U64)
              false lastKnownSeq getAll
            (rec1.1, ⟨true, true, some 500⟩ :: rec1.2)
          else
            match postprocessLogs getAll received with
            | none => (.panic, [⟨true, true, some 500⟩])
            | some logs => (.ok logs, [⟨true, true, some 500⟩])

/-- Status constants (lines 54-59). -/
def healthyStatus : String := "healthy"

/-- `unhealthyStatus`. -/
def unhealthyStatus : String := "unhealthy"

/-- `dangerousStatus`. -/
def dangerousStatus : String := "dangerous"

/-- `riskyStatus`. -/
def riskyStatus : String := "risky"

/-- `models.CompStats` (`Total`, `Current` are `float64`; the claims never
compute with them, so `Float` stays opaque). -/
structure CompStats where
  Total : Float
  Current : Float
  Percentage : Int

/-- `models.SysComponent`. -/
structure SysComponent where
  Name : String
  CPU : CompStats
  Memory : CompStats
  Storage : CompStats
  Healthy : Bool
  Status : String

/-- `models.Components`: the four status buckets. -/
structure Components where
  UnhealthyComponents : List SysComponent
  DangerousComponents : List SysComponent
  RiskyComponents : List SysComponent
  HealthyComponents : List SysComponent

/-- `models.SystemComponents`: one component family in the overview. -/
structure SystemComponents where
  Name : String
  Comps : Components
  Status : String
  Ports : List Int
  DesiredPods : Int
  ActualPods : Int
  Hosts : List String

/-- `defaultSystemComp` (lines 1163-1181): a synthetic placeholder with all
stats zero, named after the family. -/
def defaultSystemComp (compName : String) (healthy : Bool) : SysComponent :=
  let defaultStat : CompStats := { Total := 0, Current := 0, Percentage := 0 }
  let status := if healthy then healthyStatus else unhealthyStatus
  { Name := compName, CPU := defaultStat, Memory := defaultStat,
    Storage := defaultStat, Healthy := healthy, Status := status }

/-- Nonempty all-digit string: the `\d*[0-9]\d*` part of the pod-name
regexes. -/
def isAllDigits (s : String) : Bool := !s.isEmpty && s.all Char.isDigit

/-- `regexp.MatchString("^memphis-\d*[0-9]\d*$", name)`: `memphis-` followed
by one or more digits. -/
def isBrokerPodName (s : String) : Bool :=
  s.startsWith "memphis-" && isAllDigits (s.drop 8)

/-- `regexp.MatchString("^memphis-metadata-\d*[0-9]\d*$", name)`. -/
def isMetadataPodName (s : String) : Bool :=
  s.startsWith "memphis-metadata-" && isAllDigits (s.drop 17)

/-- `strings.Contains(s, pat)`: some suffix of `s` starts with `pat`. -/
def strContains (s pat : String) : Bool :=
  (List.range (s.length + 1)).any (fun i => (s.drop i).startsWith pat)

/-- The per-family name test of `getRelevantComponents` (lines 1188-1230):
regex match for the `memphis` and `memphis-metadata` families, substring
match for `memphis-rest-gateway` / `memphis-metadata-coordinator`, nothing
matches any other family name. -/
def compMatchesFamily (name : String) (compName : String) : Bool :=
  if name == "memphis" then isBrokerPodName compName
  else if name == "memphis-metadata" then isMetadataPodName compName
  else if name == "memphis-rest-gateway" || name == "memphis-metadata-coordinator" then
    strContains compName name
  else false

/-- The status dispatch of the `switch comp.Status` statements: append the
matching component to exactly one of the four accumulating buckets
(`default` goes to healthy). -/
def bucketComp (acc : List SysComponent × List SysComponent × List SysComponent × List SysComponent)
    (comp : SysComponent) :
    List SysComponent × List SysComponent × List SysComponent × List SysComponent :=
  if comp.Status == unhealthyStatus then (acc.1 ++ [comp], acc.2.1, acc.2.2.1, acc.2.2.2)
  else if comp.Status == dangerousStatus then (acc.1, acc.2.1 ++ [comp], acc.2.2.1, acc.2.2.2)
  else if comp.Status == riskyStatus then (acc.1, acc.2.1, acc.2.2.1 ++ [comp], acc.2.2.2)
  else (acc.1, acc.2.1, acc.2.2.1, acc.2.2.2 ++ [comp])

/-- `getRelevantComponents` (lines 1183-1244): bucket the matching components
by status, then pad the unhealthy bucket with synthetic placeholders up to
the desired replica count (`missingComps` is a Go `int`, so `desired` is an
`Int` and negative shortfalls pad nothing). -/
def getRelevantComponents (name : String) (components : List SysComponent)
    (desired : Int) : Components :=
  let bs := components.foldl
    (fun acc comp => if compMatchesFamily name comp.Name then bucketComp acc comp else acc)
    ([], [], [], [])
  let unhealthyComps := bs.1
  let dangerousComps := bs.2.1
  let riskyComps := bs.2.2.1
  let healthyComps := bs.2.2.2
  let missingComps := desired - (unhealthyComps.length + dangerousComps.length
    + riskyComps.length + healthyComps.length : Nat)
  let unhealthyComps :=
    if missingComps > 0 then
      unhealthyComps ++ List.replicate missingComps.toNat (defaultSystemComp name false)
    else unhealthyComps
  { UnhealthyComponents := unhealthyComps, DangerousComponents := dangerousComps,
    RiskyComponents := riskyComps, HealthyComponents := healthyComps }

/-- `checkCompStatus` (lines 1087-1098): the highest-severity non-empty
bucket. -/
def checkCompStatus (components : Components) : String :=
  if components.UnhealthyComponents.length > 0 then unhealthyStatus
  else if components.DangerousComponents.length > 0 then dangerousStatus
  else if components.RiskyComponents.length > 0 then riskyStatus
  else healthyStatus

/-- `models.ExtendedStation` entries of the station inventory.  Modelled from
the spec: the overview composer treats them opaquely (only their count and
the list itself are used), so the content is a placeholder. -/
structure ExtendedStation where
  id : Nat
deriving DecidableEq

/-- `models.MainOverviewData`. -/
structure MainOverviewData where
  TotalStations : Int
  TotalMessages : Nat
  TotalDlsMessages : Nat
  SystemComponents : List SystemComponents
  Stations : List ExtendedStation
  K8sEnv : Bool
  BrokersThroughput : List BrokerThroughputResponse
  MetricsEnabled : Bool

/-- The zero value `models.MainOverviewData{}` returned on the error path. -/
def zeroMainOverviewData : MainOverviewData :=
  { TotalStations := 0, TotalMessages := 0, TotalDlsMessages := 0,
    SystemComponents := [], Stations := [], K8sEnv := false,
    BrokersThroughput := [], MetricsEnabled := false }

/-- Results of the three fan-out tasks of `getMainOverviewDataDetails`:
station inventory (`GetAllStationsDetails`: stations, total messages, total
DLS messages), system components (`GetSystemComponents`: components, metrics
enabled), and broker throughput (`GetBrokersThroughputs`). -/
structure OverviewTasksOutcome where
  stationsRes : Except String (List ExtendedStation × Nat × Nat)
  componentsRes : Except String (List SystemComponents × Bool)
  throughputRes : Except String (List BrokerThroughputResponse)

/-- The error a task contributes to the shared `generalErr` cell. -/
def taskErr {α : Type} : Except String α → Option String
  | .ok _ => none
  | .error e => some e

/-- `getMainOverviewDataDetails` (lines 219-281) as a function of the three
task outcomes and the configuration.  Each successful task writes its fields
into the shared struct under the mutex; a failing task writes only the shared
error cell.  The racy last-writer-wins choice among several failing tasks is
resolved deterministically (first failing task in declaration order), one
linearisation of the Go race.  After the barrier, a set error cell makes the
function return the zero struct together with the error. -/
def getMainOverviewDataDetails (outcome : OverviewTasksOutcome)
    (dockerEnv : String) (localClusterEnv : Bool) : MainOverviewData × Option String :=
  let d0 := zeroMainOverviewData
  let d1 := match outcome.stationsRes with
    | .ok (stations, totalMessages, totalDlsMsgs) =>
      { d0 with TotalStations := (stations.length : Int), Stations := stations,
                TotalMessages := totalMessages, TotalDlsMessages := totalDlsMsgs }
    | .error _ => d0
  let d2 := match outcome.componentsRes with
    | .ok (systemComponents, metricsEnabled) =>
      { d1 with SystemComponents := systemComponents, MetricsEnabled := metricsEnabled }
    | .error _ => d1
  let d3 := match outcome.throughputRes with
    | .ok brokersThroughputs => { d2 with BrokersThroughput := brokersThroughputs }
    | .error _ => d2
  let generalErr := match taskErr outcome.stationsRes with
    | some e => some e
    | none => match taskErr outcome.componentsRes with
      | some e => some e
      | none => taskErr outcome.throughputRes
  match generalErr with
  | some e => (zeroMainOverviewData, some e)
  | none =>
    let k8sEnv := !(dockerEnv == "true" || localClusterEnv)
    ({ d3 with K8sEnv := k8sEnv }, none)

/-- Environment exhibiting the consumer leak of `GetBrokersThroughputs`:
`memphisAddConsumer` succeeds, then `subscribeOnAcc` fails. -/
def leakEnvThroughput : ThroughputEnv :=
  ⟨.ok ⟨3, 1, 3⟩, none, some "subscribe failed", []⟩

/-- Same leak environment for `GetSystemLogs`. -/
def leakEnvLogs : LogsEnv :=
  ⟨.ok ⟨3, 1, 3⟩, fun _ => none, fun _ => some "subscribe failed", fun _ => []⟩

/-- Spec-side bucket membership predicates for C8: a component of the family
that carries the given status. -/
def isUnhealthyOf (name : String) (c : SysComponent) : Bool :=
  compMatchesFamily name c.Name && (c.Status == unhealthyStatus)

/-- Dangerous-bucket predicate. -/
def isDangerousOf (name : String) (c : SysComponent) : Bool :=
  compMatchesFamily name c.Name && (c.Status == dangerousStatus)

/-- Risky-bucket predicate. -/
def isRiskyOf (name : String) (c : SysComponent) : Bool :=
  compMatchesFamily name c.Name && (c.Status == riskyStatus)

/-- Healthy-bucket (default-branch) predicate. -/
def isHealthyOf (name : String) (c : SysComponent) : Bool :=
  compMatchesFamily name c.Name && !(c.Status == unhealthyStatus)
    && !(c.Status == dangerousStatus) && !(c.Status == riskyStatus)

/-- The read value a series holds at index `i`, with `0` outside the series
(matching both the zero-initialised `total` slots and the "shorter series
contributes nothing at `i`" convention). -/
def readValAt (l : List ThroughputReadResponse) (i : Nat) : Int :=
  (l.getD i { Timestamp := 0, Read := 0 }).Read

/-- Write-side analogue of `readValAt`. -/
def writeValAt (l : List ThroughputWriteResponse) (i : Nat) : Int :=
  (l.getD i { Timestamp := 0, Write := 0 }).Write

/-- The tenant-`t` view of a fetched message: everything the aggregation can
observe about it for tenant `t` — the timestamp, whether the payload
unmarshals, the broker name, and the read/write map entries under `t`
(`0` when absent, as a Go map read yields).  Two inputs with equal views
agree on broker names, timestamps and per-sample tenant-`t` entries. -/
def tenantView (t : String) (m : ThroughputMsg) : ThroughputMsg :=
  { Subject := "", Sequence := 0, Time := m.Time,
    Data := m.Data.map (fun bt =>
      { Name := bt.Name, ReadMap := [(t, mapGet bt.ReadMap t)],
        WriteMap := [(t, mapGet bt.WriteMap t)] }) }

theorem u64Sub_add_one (L a : Nat) (ha : a ≤ L) (hL : L + 1 < U64) :
    (u64Sub L a + 1) % U64 = L - a + 1 := by
  have haU : a < U64 := by omega
  have h1 : L + (U64 - a % U64) = U64 + (L - a) := by
    rw [Nat.mod_eq_of_lt haU]; omega
  have h2 : u64Sub L a = L - a := by
    rw [u64Sub, h1, Nat.add_mod_left, Nat.mod_eq_of_lt (by omega)]
  rw [h2, Nat.mod_eq_of_lt (by omega)]

/-- C5: `GetSystemLogs` selects the start sequence exactly per mode:
`getAll` takes the stream's first sequence with `amount` set to the message
count; `fromLast` takes `max(1, lastSeq − amount + 1)` with the uint-wrap
case clamped to 1; otherwise `max(1, lastKnownSeq − amount + 1)`, with
`amount` reduced to `lastKnownSeq` and the start forced to 1 when
`amount ≥ lastKnownSeq`; in every mode `amount` is first capped by the
stream's message count. -/
theorem getSystemLogs_start_sequence_selection (st : StreamState)
    (amount lastKnownSeq : Nat) (fromLast getAll : Bool)
    (hl : st.LastSeq + 1 < U64) (hk : lastKnownSeq + 1 < U64) :
    (getAll = true →
      computeStartAmount st amount lastKnownSeq fromLast getAll
        = (st.FirstSeq, st.Msgs, lastKnownSeq)) ∧
    (getAll = false → fromLast = true →
      computeStartAmount st amount lastKnownSeq fromLast getAll
        = (max 1 (st.LastSeq + 1 - min st.Msgs amount), min st.Msgs amount, st.LastSeq)) ∧
    (getAll = false → fromLast = false →
      computeStartAmount st amount lastKnownSeq fromLast getAll
        = if lastKnownSeq ≤ min st.Msgs amount
          then (1, lastKnownSeq, lastKnownSeq)
          else (max 1 (lastKnownSeq + 1 - min st.Msgs amount), min st.Msgs amount, lastKnownSeq)) := by
  refine ⟨fun hg => by simp [computeStartAmount, hg], fun hg hf => ?_, fun hg hf => ?_⟩
  · simp only [computeStartAmount, hg, hf, if_false, if_true, Bool.false_eq_true]
    by_cases hge : min st.Msgs amount ≥ st.LastSeq
    · simp only [hge, if_true]
      have : max 1 (st.LastSeq + 1 - min st.Msgs amount) = 1 := by omega
      rw [this]
    · simp only [hge, if_false]
      have hlt : min st.Msgs amount < st.LastSeq := by omega
      rw [u64Sub_add_one st.LastSeq (min st.Msgs amount) (by omega) hl]
      have : max 1 (st.LastSeq + 1 - min st.Msgs amount)
          = st.LastSeq - min st.Msgs amount + 1 := by omega
      rw [this]
  · by_cases hge : min st.Msgs amount ≥ lastKnownSeq
    · simp [computeStartAmount, hg, hf, hge]
    · have hlt : min st.Msgs amount < lastKnownSeq := by omega
      have hs := u64Sub_add_one lastKnownSeq (min st.Msgs amount) (by omega) hk
      simp only [computeStartAmount, hg, hf, Bool.false_eq_true, if_false]
      rw [if_neg hge, hs, if_neg (by omega : ¬ lastKnownSeq ≤ min st.Msgs amount)]
      have hmax : max 1 (lastKnownSeq + 1 - min st.Msgs amount)
          = lastKnownSeq - min st.Msgs amount + 1 := by omega
      rw [hmax]

/-- Witness for C5 at a concrete stream state and arguments. -/
theorem getSystemLogs_start_sequence_selection_witness :
    computeStartAmount ⟨250, 1, 250⟩ 50 0 true false = (201, 50, 250) := by
  have h := (getSystemLogs_start_sequence_selection ⟨250, 1, 250⟩ 50 0 true false
    (by decide) (by decide)).2.1 rfl rfl
  simpa using h

/-- C2: if any of the three fan-out tasks fails, `getMainOverviewDataDetails`
returns the zero-valued `MainOverviewData` together with one of the failing
tasks' errors — never a partial payload. -/
theorem getMainOverviewDataDetails_error_implies_zero_payload
    (outcome : OverviewTasksOutcome) (dockerEnv : String) (localClusterEnv : Bool)
    (h : taskErr outcome.stationsRes ≠ none ∨ taskErr outcome.componentsRes ≠ none ∨
         taskErr outcome.throughputRes ≠ none) :
    ∃ e, getMainOverviewDataDetails outcome dockerEnv localClusterEnv
        = (zeroMainOverviewData, some e) ∧
      (taskErr outcome.stationsRes = some e ∨ taskErr outcome.componentsRes = some e ∨
       taskErr outcome.throughputRes = some e) := by
  cases hs : outcome.stationsRes with
  | error e =>
    refine ⟨e, ?_, Or.inl (by simp [taskErr, hs])⟩
    simp [getMainOverviewDataDetails, taskErr, hs]
  | ok v1 =>
    cases hc : outcome.componentsRes with
    | error e =>
      refine ⟨e, ?_, Or.inr (Or.inl (by simp [taskErr, hc]))⟩
      simp [getMainOverviewDataDetails, taskErr, hs, hc]
    | ok v2 =>
      cases ht : outcome.throughputRes with
      | error e =>
        refine ⟨e, ?_, Or.inr (Or.inr (by simp [taskErr, ht]))⟩
        simp [getMainOverviewDataDetails, taskErr, hs, hc, ht]
      | ok v3 =>
        exfalso
        simp [taskErr, hs, hc, ht] at h

/-- Witness for C2: the station-inventory task fails with `"X"`, the other
two succeed. -/
theorem getMainOverviewDataDetails_error_witness :
    ∃ e, getMainOverviewDataDetails ⟨.error "X", .ok ([], true), .ok []⟩ "false" false
        = (zeroMainOverviewData, some e) ∧
      (taskErr (Except.error "X" : Except String (List ExtendedStation × Nat × Nat)) = some e ∨
       taskErr (Except.ok (([], true) : List SystemComponents × Bool)) = some e ∨
       taskErr (Except.ok ([] : List BrokerThroughputResponse)) = some e) :=
  getMainOverviewDataDetails_error_implies_zero_payload ⟨.error "X", .ok ([], true), .ok []⟩
    "false" false (Or.inl (by simp [taskErr]))

/-- C3 (code bug): on the subscribe-error exit path both stream-read
sessions return with the durable consumer already created but never
unsubscribed and with no deletion scheduled — the consumer is leaked, so it
is not removed within `timeout + 1 s` as the specification requires for
every exit path. -/
theorem streamReader_subscribe_error_leaks_consumer :
    GetBrokersThroughputs 5 "t1" leakEnvThroughput
      = (some (.error "subscribe failed"),
         { consumerCreated := true, unsubscribed := false, removeScheduledAfterMs := none }) ∧
    GetSystemLogs leakEnvLogs 1 0 50 false 100 false
      = (.err "subscribe failed",
         [{ consumerCreated := true, unsubscribed := false, removeScheduledAfterMs := none }]) :=
  ⟨rfl, rfl⟩

theorem bucketFold_eq (name : String) : ∀ (comps : List SysComponent)
    (u d r h : List SysComponent),
    comps.foldl
      (fun acc comp => if compMatchesFamily name comp.Name then bucketComp acc comp else acc)
      (u, d, r, h)
    = (u ++ comps.filter (isUnhealthyOf name), d ++ comps.filter (isDangerousOf name),
       r ++ comps.filter (isRiskyOf name), h ++ comps.filter (isHealthyOf name)) := by
  intro comps
  induction comps with
  | nil => intro u d r h; simp
  | cons c rest ih =>
    intro u d r h
    rw [List.foldl_cons]
    by_cases hm : compMatchesFamily name c.Name
    · rw [if_pos hm]
      by_cases h1 : c.Status = "unhealthy"
      · have hb : bucketComp (u, d, r, h) c = (u ++ [c], d, r, h) := by
          simp [bucketComp, h1, unhealthyStatus]
        rw [hb, ih]
        simp [isUnhealthyOf, isDangerousOf, isRiskyOf, isHealthyOf, hm, h1,
          List.filter_cons, List.append_assoc,
          unhealthyStatus, dangerousStatus, riskyStatus, healthyStatus]
      · by_cases h2 : c.Status = "dangerous"
        · have hb : bucketComp (u, d, r, h) c = (u, d ++ [c], r, h) := by
            simp [bucketComp, h1, h2, unhealthyStatus, dangerousStatus]
          rw [hb, ih]
          simp [isUnhealthyOf, isDangerousOf, isRiskyOf, isHealthyOf, hm, h1, h2,
            List.filter_cons, List.append_assoc,
            unhealthyStatus, dangerousStatus, riskyStatus, healthyStatus]
        · by_cases h3 : c.Status = "risky"
          · have hb : bucketComp (u, d, r, h) c = (u, d, r ++ [c], h) := by
              simp [bucketComp, h1, h2, h3, unhealthyStatus, dangerousStatus, riskyStatus, healthyStatus]
            rw [hb, ih]
            simp [isUnhealthyOf, isDangerousOf, isRiskyOf, isHealthyOf, hm, h1, h2, h3,
              List.filter_cons, List.append_assoc,
              unhealthyStatus, dangerousStatus, riskyStatus, healthyStatus]
          · have hb : bucketComp (u, d, r, h) c = (u, d, r, h ++ [c]) := by
              simp [bucketComp, h1, h2, h3, unhealthyStatus, dangerousStatus, riskyStatus, healthyStatus]
            rw [hb, ih]
            simp [isUnhealthyOf, isDangerousOf, isRiskyOf, isHealthyOf, hm, h1, h2, h3,
              List.filter_cons, List.append_assoc,
              unhealthyStatus, dangerousStatus, riskyStatus, healthyStatus]
    · rw [if_neg hm, ih]
      simp [isUnhealthyOf, isDangerousOf, isRiskyOf, isHealthyOf, hm, List.filter_cons]

theorem bucket_lengths_partition (name : String) : ∀ comps : List SysComponent,
    (comps.filter (isUnhealthyOf name)).length + (comps.filter (isDangerousOf name)).length
      + (comps.filter (isRiskyOf name)).length + (comps.filter (isHealthyOf name)).length
    = (comps.filter (fun c => compMatchesFamily name c.Name)).length := by
  intro comps
  induction comps with
  | nil => simp
  | cons c rest ih =>
    by_cases hm : compMatchesFamily name c.Name
    · by_cases h1 : c.Status = "unhealthy"
      · simp only [List.filter_cons, isUnhealthyOf, isDangerousOf, isRiskyOf, isHealthyOf,
          hm, h1]
        simp only [unhealthyStatus, dangerousStatus, riskyStatus, healthyStatus]
        simp at ih ⊢
        omega
      · by_cases h2 : c.Status = "dangerous"
        · simp [List.filter_cons, isUnhealthyOf, isDangerousOf, isRiskyOf, isHealthyOf,
            hm, h1, h2, unhealthyStatus, dangerousStatus, riskyStatus, healthyStatus] at ih ⊢
          omega
        · by_cases h3 : c.Status = "risky"
          · simp [List.filter_cons, isUnhealthyOf, isDangerousOf, isRiskyOf, isHealthyOf,
              hm, h1, h2, h3, unhealthyStatus, dangerousStatus, riskyStatus, healthyStatus] at ih ⊢
            omega
          · simp [List.filter_cons, isUnhealthyOf, isDangerousOf, isRiskyOf, isHealthyOf,
              hm, h1, h2, h3, unhealthyStatus, dangerousStatus, riskyStatus, healthyStatus] at ih ⊢
            omega
    · simp [List.filter_cons, isUnhealthyOf, isDangerousOf, isRiskyOf, isHealthyOf, hm, ih]

/-- C8: `getRelevantComponents` places each matching component in exactly one
status bucket (the four buckets are the disjoint status-filters of the
matched components, in order), appends exactly
`desired − (number of matched components)` synthetic unhealthy placeholders
when the desired count exceeds it, and `checkCompStatus` returns the
highest-severity non-empty bucket. -/
theorem getRelevantComponents_spec (name : String) (components : List SysComponent)
    (desired : Int) :
    ((getRelevantComponents name components desired).UnhealthyComponents
        = components.filter (isUnhealthyOf name)
          ++ List.replicate
              (desired - (components.filter (fun c => compMatchesFamily name c.Name)).length).toNat
              (defaultSystemComp name false)
      ∧ (getRelevantComponents name components desired).DangerousComponents
        = components.filter (isDangerousOf name)
      ∧ (getRelevantComponents name components desired).RiskyComponents
        = components.filter (isRiskyOf name)
      ∧ (getRelevantComponents name components desired).HealthyComponents
        = components.filter (isHealthyOf name))
    ∧ (∀ cs : Components, checkCompStatus cs
        = if cs.UnhealthyComponents.length ≠ 0 then unhealthyStatus
          else if cs.DangerousComponents.length ≠ 0 then dangerousStatus
          else if cs.RiskyComponents.length ≠ 0 then riskyStatus
          else healthyStatus) := by
  have hfold := bucketFold_eq name components [] [] [] []
  have hlen := bucket_lengths_partition name components
  refine ⟨⟨?_, ?_, ?_, ?_⟩, ?_⟩
  · simp only [getRelevantComponents, hfold, List.nil_append]
    rw [← hlen]
    by_cases hpos : desired - ((components.filter (isUnhealthyOf name)).length
        + (components.filter (isDangerousOf name)).length
        + (components.filter (isRiskyOf name)).length
        + (components.filter (isHealthyOf name)).length : Nat) > 0
    · rw [if_pos hpos]
    · rw [if_neg hpos]
      have hz : (desired - ((components.filter (isUnhealthyOf name)).length
          + (components.filter (isDangerousOf name)).length
          + (components.filter (isRiskyOf name)).length
          + (components.filter (isHealthyOf name)).length : Nat)).toNat = 0 := by omega
      rw [hz]
      simp
  · simp only [getRelevantComponents, hfold, List.nil_append]
  · simp only [getRelevantComponents, hfold, List.nil_append]
  · simp only [getRelevantComponents, hfold, List.nil_append]
  · intro cs
    rw [checkCompStatus]
    by_cases h1 : cs.UnhealthyComponents.length ≠ 0
    · rw [if_pos (by omega), if_pos h1]
    · rw [if_neg (by omega), if_neg h1]
      by_cases h2 : cs.DangerousComponents.length ≠ 0
      · rw [if_pos (by omega), if_pos h2]
      · rw [if_neg (by omega), if_neg h2]
        by_cases h3 : cs.RiskyComponents.length ≠ 0
        · rw [if_pos (by omega), if_pos h3]
        · rw [if_neg (by omega), if_neg h3]

theorem wrap64_wrap64_add (a b : Int) : wrap64 (wrap64 a + b) = wrap64 (a + b) := by
  unfold wrap64
  omega

theorem wrap64_zero : wrap64 0 = 0 := by
  unfold wrap64
  decide

theorem getD_replicate_self {α : Type} (z : α) : ∀ (W i : Nat),
    (List.replicate W z).getD i z = z := by
  intro W
  induction W with
  | zero => intro i; simp
  | succ n ih => intro i; cases i <;> simp [List.replicate, ih]

theorem readValAt_of_ge : ∀ (l : List ThroughputReadResponse) (i : Nat),
    l.length ≤ i → readValAt l i = 0 := by
  intro l i h
  rw [readValAt, List.getD_eq_default _ _ h]

theorem writeValAt_of_ge : ∀ (l : List ThroughputWriteResponse) (i : Nat),
    l.length ≤ i → writeValAt l i = 0 := by
  intro l i h
  rw [writeValAt, List.getD_eq_default _ _ h]

theorem accRead_readValAt : ∀ (rs total t2 : List ThroughputReadResponse),
    accRead total rs = some t2 → ∀ i,
    readValAt t2 i
      = if i < rs.length then add64 (readValAt total i) (readValAt rs i)
        else readValAt total i := by
  intro rs
  induction rs with
  | nil =>
    intro total t2 h i
    simp only [accRead] at h
    cases h
    simp
  | cons r rest ih =>
    intro total t2 h i
    cases total with
    | nil => simp [accRead] at h
    | cons t ts =>
      simp only [accRead, Option.map_eq_some'] at h
      obtain ⟨tl, htl, rfl⟩ := h
      cases i with
      | zero => simp [readValAt]
      | succ j =>
        simp only [readValAt, List.getD_cons_succ, List.length_cons, Nat.add_lt_add_iff_right]
        exact ih ts tl htl j

theorem accWrite_writeValAt : ∀ (ws total t2 : List ThroughputWriteResponse),
    accWrite total ws = some t2 → ∀ i,
    writeValAt t2 i
      = if i < ws.length then add64 (writeValAt total i) (writeValAt ws i)
        else writeValAt total i := by
  intro ws
  induction ws with
  | nil =>
    intro total t2 h i
    simp only [accWrite] at h
    cases h
    simp
  | cons w rest ih =>
    intro total t2 h i
    cases total with
    | nil => simp [accWrite] at h
    | cons t ts =>
      simp only [accWrite, Option.map_eq_some'] at h
      obtain ⟨tl, htl, rfl⟩ := h
      cases i with
      | zero => simp [writeValAt]
      | succ j =>
        simp only [writeValAt, List.getD_cons_succ, List.length_cons, Nat.add_lt_add_iff_right]
        exact ih ts tl htl j

theorem accRead_isSome : ∀ (rs total : List ThroughputReadResponse),
    (accRead total rs).isSome ↔ rs.length ≤ total.length := by
  intro rs
  induction rs with
  | nil => intro total; simp [accRead]
  | cons r rest ih =>
    intro total
    cases total with
    | nil => simp [accRead]
    | cons t ts => simp [accRead, ih ts]

theorem accWrite_isSome : ∀ (ws total : List ThroughputWriteResponse),
    (accWrite total ws).isSome ↔ ws.length ≤ total.length := by
  intro ws
  induction ws with
  | nil => intro total; simp [accWrite]
  | cons w rest ih =>
    intro total
    cases total with
    | nil => simp [accWrite]
    | cons t ts => simp [accWrite, ih ts]

theorem accRead_length : ∀ (rs total t2 : List ThroughputReadResponse),
    accRead total rs = some t2 → t2.length = total.length := by
  intro rs
  induction rs with
  | nil => intro total t2 h; simp only [accRead] at h; cases h; rfl
  | cons r rest ih =>
    intro total t2 h
    cases total with
    | nil => simp [accRead] at h
    | cons t ts =>
      simp only [accRead, Option.map_eq_some'] at h
      obtain ⟨tl, htl, rfl⟩ := h
      simp [ih ts tl htl]

theorem accWrite_length : ∀ (ws total t2 : List ThroughputWriteResponse),
    accWrite total ws = some t2 → t2.length = total.length := by
  intro ws
  induction ws with
  | nil => intro total t2 h; simp only [accWrite] at h; cases h; rfl
  | cons w rest ih =>
    intro total t2 h
    cases total with
    | nil => simp [accWrite] at h
    | cons t ts =>
      simp only [accWrite, Option.map_eq_some'] at h
      obtain ⟨tl, htl, rfl⟩ := h
      simp [ih ts tl htl]

theorem totalsAux_readValAt : ∀ (rows : List BrokerThroughputResponse)
    (tr tw tr2 tw2 : _) (S : Nat → Int),
    totalsAux rows (tr, tw) = some (tr2, tw2) →
    (∀ i, readValAt tr i = wrap64 (S i)) →
    ∀ i, readValAt tr2 i
      = wrap64 (S i + (rows.map (fun row => readValAt row.Read i)).sum) := by
  intro rows
  induction rows with
  | nil =>
    intro tr tw tr2 tw2 S h hS i
    simp only [totalsAux] at h
    cases h
    simpa using hS i
  | cons row rest ih =>
    intro tr tw tr2 tw2 S h hS i
    simp only [totalsAux] at h
    cases han : accRead tr row.Read with
    | none => rw [han] at h; exact absurd h (by simp)
    | some tr1 =>
      rw [han] at h
      cases haw : accWrite tw row.Write with
      | none => rw [haw] at h; exact absurd h (by simp)
      | some tw1 =>
        rw [haw] at h
        have hS1 : ∀ j, readValAt tr1 j
            = wrap64 (S j + readValAt row.Read j) := by
          intro j
          rw [accRead_readValAt row.Read tr tr1 han j]
          by_cases hj : j < row.Read.length
          · rw [if_pos hj, hS j, add64, wrap64_wrap64_add]
          · rw [if_neg hj, hS j,
              readValAt_of_ge row.Read j (by omega), add_zero]
        have := ih tr1 tw1 tr2 tw2 (fun j => S j + readValAt row.Read j) h hS1 i
        rw [this, List.map_cons, List.sum_cons]
        congr 1
        ring

theorem totalsAux_writeValAt : ∀ (rows : List BrokerThroughputResponse)
    (tr tw tr2 tw2 : _) (S : Nat → Int),
    totalsAux rows (tr, tw) = some (tr2, tw2) →
    (∀ i, writeValAt tw i = wrap64 (S i)) →
    ∀ i, writeValAt tw2 i
      = wrap64 (S i + (rows.map (fun row => writeValAt row.Write i)).sum) := by
  intro rows
  induction rows with
  | nil =>
    intro tr tw tr2 tw2 S h hS i
    simp only [totalsAux] at h
    cases h
    simpa using hS i
  | cons row rest ih =>
    intro tr tw tr2 tw2 S h hS i
    simp only [totalsAux] at h
    cases han : accRead tr row.Read with
    | none => rw [han] at h; exact absurd h (by simp)
    | some tr1 =>
      rw [han] at h
      cases haw : accWrite tw row.Write with
      | none => rw [haw] at h; exact absurd h (by simp)
      | some tw1 =>
        rw [haw] at h
        have hS1 : ∀ j, writeValAt tw1 j
            = wrap64 (S j + writeValAt row.Write j) := by
          intro j
          rw [accWrite_writeValAt row.Write tw tw1 haw j]
          by_cases hj : j < row.Write.length
          · rw [if_pos hj, hS j, add64, wrap64_wrap64_add]
          · rw [if_neg hj, hS j,
              writeValAt_of_ge row.Write j (by omega), add_zero]
        have := ih tr1 tw1 tr2 tw2 (fun j => S j + writeValAt row.Write j) h hS1 i
        rw [this, List.map_cons, List.sum_cons]
        congr 1
        ring

/-- C1: whenever `GetBrokersThroughputs`'s aggregation returns a list (in
particular, whenever no broker contributed more than `W` samples, so the
`total` writes stay in bounds), the row at index 0 is named `"total"` and its
read value at every index `i` is the `int64` sum of the per-broker read
values at `i`, a missing index of a shorter series contributing `0`;
symmetrically for write. -/
theorem getBrokersThroughputs_total_is_sum (W : Nat) (tenant : String)
    (msgs : List ThroughputMsg) (res : List BrokerThroughputResponse)
    (h : aggregateThroughputs W tenant msgs = some (.ok res)) :
    ∃ tr tw rows, res = { Name := "total", Read := tr, Write := tw } :: rows
      ∧ (∀ i, readValAt tr i
          = wrap64 ((rows.map (fun row => readValAt row.Read i)).sum))
      ∧ (∀ i, writeValAt tw i
          = wrap64 ((rows.map (fun row => writeValAt row.Write i)).sum)) := by
  simp only [aggregateThroughputs] at h
  cases hb : buildMap tenant (List.insertionSort timeLe msgs) [] with
  | error e => rw [hb] at h; simp at h
  | ok m =>
    rw [hb] at h
    simp only at h
    cases ht : totals W (m.map (fun p => p.2)) with
    | none => rw [ht] at h; simp at h
    | some p =>
      obtain ⟨tr, tw⟩ := p
      rw [ht] at h
      simp only [Option.some.injEq, Except.ok.injEq] at h
      rw [totals] at ht
      refine ⟨tr, tw, m.map (fun p => p.2), h.symm, ?_, ?_⟩
      · intro i
        have h0 : ∀ j, readValAt (List.replicate W
            ({ Timestamp := 0, Read := 0 } : ThroughputReadResponse)) j
            = wrap64 ((fun _ => (0 : Int)) j) := by
          intro j
          rw [wrap64_zero, readValAt, getD_replicate_self]
        have := totalsAux_readValAt (m.map (fun p => p.2)) _ _ tr tw
          (fun _ => 0) ht h0 i
        simpa using this
      · intro i
        have h0 : ∀ j, writeValAt (List.replicate W
            ({ Timestamp := 0, Write := 0 } : ThroughputWriteResponse)) j
            = wrap64 ((fun _ => (0 : Int)) j) := by
          intro j
          rw [wrap64_zero, writeValAt, getD_replicate_self]
        have := totalsAux_writeValAt (m.map (fun p => p.2)) _ _ tr tw
          (fun _ => 0) ht h0 i
        simpa using this

/-- Witness for C1: the spec's two-broker scenario (`W = 3`, tenant `t1`,
reads 10 and 5, writes 1 and 2, equal timestamps). -/
theorem getBrokersThroughputs_total_is_sum_witness :
    ∃ tr tw rows,
      ([{ Name := "total",
          Read := [{ Timestamp := 100, Read := 15 }, { Timestamp := 0, Read := 0 },
                   { Timestamp := 0, Read := 0 }],
          Write := [{ Timestamp := 100, Write := 3 }, { Timestamp := 0, Write := 0 },
                    { Timestamp := 0, Write := 0 }] },
        { Name := "b1", Read := [{ Timestamp := 100, Read := 10 }],
          Write := [{ Timestamp := 100, Write := 1 }] },
        { Name := "b2", Read := [{ Timestamp := 100, Read := 5 }],
          Write := [{ Timestamp := 100, Write := 2 }] }] : List BrokerThroughputResponse)
        = { Name := "total", Read := tr, Write := tw } :: rows
      ∧ (∀ i, readValAt tr i
          = wrap64 ((rows.map (fun row => readValAt row.Read i)).sum))
      ∧ (∀ i, writeValAt tw i
          = wrap64 ((rows.map (fun row => writeValAt row.Write i)).sum)) :=
  getBrokersThroughputs_total_is_sum 3 "t1"
    [{ Subject := "s", Sequence := 1, Time := 100,
       Data := some { Name := "b1", ReadMap := [("t1", 10)], WriteMap := [("t1", 1)] } },
     { Subject := "s", Sequence := 2, Time := 100,
       Data := some { Name := "b2", ReadMap := [("t1", 5)], WriteMap := [("t1", 2)] } }]
    _ rfl

theorem totalsAux_isSome : ∀ (rows : List BrokerThroughputResponse)
    (tr : List ThroughputReadResponse) (tw : List ThroughputWriteResponse),
    (∀ row ∈ rows, row.Read.length ≤ tr.length ∧ row.Write.length ≤ tw.length) →
    (totalsAux rows (tr, tw)).isSome := by
  intro rows
  induction rows with
  | nil => intro tr tw _; simp [totalsAux]
  | cons row rest ih =>
    intro tr tw hlen
    have hr : (accRead tr row.Read).isSome :=
      (accRead_isSome row.Read tr).2 (hlen row (by simp)).1
    have hw : (accWrite tw row.Write).isSome :=
      (accWrite_isSome row.Write tw).2 (hlen row (by simp)).2
    cases han : accRead tr row.Read with
    | none => rw [han] at hr; simp at hr
    | some tr1 =>
      cases haw : accWrite tw row.Write with
      | none => rw [haw] at hw; simp at hw
      | some tw1 =>
        simp only [totalsAux, han, haw]
        apply ih tr1 tw1
        intro r hr2
        have h1 := accRead_length row.Read tr tr1 han
        have h2 := accWrite_length row.Write tw tw1 haw
        rw [h1, h2]
        exact hlen r (by simp [hr2])

theorem orderedInsert_self_replicate (m : ThroughputMsg) : ∀ n : Nat,
    List.orderedInsert timeLe m (List.replicate n m) = List.replicate (n + 1) m := by
  intro n
  cases n with
  | zero => rfl
  | succ k =>
    simp only [List.replicate, List.orderedInsert]
    rw [if_pos (show timeLe m m from Nat.le_refl m.Time)]

theorem insertionSort_replicate (m : ThroughputMsg) : ∀ n : Nat,
    List.insertionSort timeLe (List.replicate n m) = List.replicate n m := by
  intro n
  induction n with
  | zero => rfl
  | succ k ih =>
    simp only [List.replicate, List.insertionSort, ih]
    exact orderedInsert_self_replicate m k

theorem buildMap_replicate_acc (tenant : String) (bt : BrokerThroughput)
    (subj : String) (seq ts : Nat) : ∀ (n : Nat) (row : BrokerThroughputResponse),
    buildMap tenant
      (List.replicate n { Subject := subj, Sequence := seq, Data := some bt, Time := ts })
      [(bt.Name, row)]
    = .ok [(bt.Name,
        { row with
          Read := row.Read ++ List.replicate n
            { Timestamp := ts, Read := mapGet bt.ReadMap tenant },
          Write := row.Write ++ List.replicate n
            { Timestamp := ts, Write := mapGet bt.WriteMap tenant } })] := by
  intro n
  induction n with
  | zero =>
    intro row
    simp [buildMap]
  | succ k ih =>
    intro row
    rw [List.replicate_succ]
    simp only [buildMap, upsertSample, eq_self_iff_true, if_true]
    rw [ih]
    simp [List.replicate_succ]

theorem totals_none_of_long (W : Nat) (row : BrokerThroughputResponse)
    (h : W < row.Read.length) : totals W [row] = none := by
  cases han : accRead (List.replicate W { Timestamp := 0, Read := 0 }) row.Read with
  | none => simp [totals, totalsAux, han]
  | some tr1 =>
    exfalso
    have h2 := (accRead_isSome row.Read
      (List.replicate W ({ Timestamp := 0, Read := 0 } : ThroughputReadResponse))).1
      (by rw [han]; rfl)
    simp at h2
    omega

/-- C10: the `total` accumulation is in bounds for every input in which no
broker's series exceeds `W` entries; and for every `W` there is an input — a
broker contributing `W + 1` samples — on which the write at index `W` is out
of range of the length-`W` `total` slices and the run panics (`none`). -/
theorem totals_inbounds_iff_within_window (W : Nat) :
    (∀ rows : List BrokerThroughputResponse,
      (∀ row ∈ rows, row.Read.length ≤ W ∧ row.Write.length ≤ W) →
      (totals W rows).isSome)
    ∧ aggregateThroughputs W "t1"
        (List.replicate (W + 1)
          { Subject := "s", Sequence := 1,
            Data := some { Name := "b1", ReadMap := [("t1", 7)], WriteMap := [("t1", 8)] },
            Time := 9 }) = none := by
  constructor
  · intro rows hlen
    rw [totals]
    apply totalsAux_isSome
    intro row hrow
    simpa using hlen row hrow
  · simp only [aggregateThroughputs, insertionSort_replicate]
    rw [List.replicate_succ]
    simp only [buildMap, upsertSample]
    rw [buildMap_replicate_acc]
    dsimp only [List.map]
    rw [totals_none_of_long W _ (by simp)]

/-- Witness for C10 at `W = 2`: a one-sample series stays in bounds, a
three-sample series panics. -/
theorem totals_inbounds_iff_within_window_witness :
    (totals 2 [{ Name := "b1", Read := [{ Timestamp := 1, Read := 4 }],
                 Write := [{ Timestamp := 1, Write := 5 }] }]).isSome
    ∧ aggregateThroughputs 2 "t1"
        (List.replicate 3
          { Subject := "s", Sequence := 1,
            Data := some { Name := "b1", ReadMap := [("t1", 7)], WriteMap := [("t1", 8)] },
            Time := 9 }) = none :=
  ⟨(totals_inbounds_iff_within_window 2).1
      [{ Name := "b1", Read := [{ Timestamp := 1, Read := 4 }],
         Write := [{ Timestamp := 1, Write := 5 }] }]
      (by intro row hrow; simp at hrow; rw [hrow]; exact ⟨by simp, by simp⟩),
   (totals_inbounds_iff_within_window 2).2⟩

theorem mapGet_single (t : String) (v : Int) : mapGet [(t, v)] t = v := by
  simp [mapGet]

theorem timeLe_tenantView (t : String) (a b : ThroughputMsg) :
    timeLe (tenantView t a) (tenantView t b) = timeLe a b := rfl

theorem orderedInsert_map_tenantView (t : String) (a : ThroughputMsg) :
    ∀ l : List ThroughputMsg,
    List.orderedInsert timeLe (tenantView t a) (l.map (tenantView t))
      = (List.orderedInsert timeLe a l).map (tenantView t) := by
  intro l
  induction l with
  | nil => rfl
  | cons b bs ih =>
    simp only [List.map_cons, List.orderedInsert]
    by_cases h : timeLe a b
    · rw [if_pos h, if_pos (show timeLe (tenantView t a) (tenantView t b) from h)]
      simp
    · rw [if_neg h, if_neg (show ¬ timeLe (tenantView t a) (tenantView t b) from h)]
      simp [ih]

theorem insertionSort_map_tenantView (t : String) : ∀ msgs : List ThroughputMsg,
    List.insertionSort timeLe (msgs.map (tenantView t))
      = (List.insertionSort timeLe msgs).map (tenantView t) := by
  intro msgs
  induction msgs with
  | nil => rfl
  | cons m rest ih =>
    simp only [List.map_cons, List.insertionSort, ih]
    exact orderedInsert_map_tenantView t m (List.insertionSort timeLe rest)

theorem upsertSample_congr (t : String) (ts : Nat) (bt1 bt2 : BrokerThroughput)
    (hn : bt1.Name = bt2.Name) (hr : mapGet bt1.ReadMap t = mapGet bt2.ReadMap t)
    (hw : mapGet bt1.WriteMap t = mapGet bt2.WriteMap t) :
    ∀ acc, upsertSample t bt1 ts acc = upsertSample t bt2 ts acc := by
  intro acc
  induction acc with
  | nil => simp [upsertSample, hn, hr, hw]
  | cons p rest ih =>
    obtain ⟨k, v⟩ := p
    simp only [upsertSample, hn, hr, hw, ih]

theorem buildMap_map_tenantView (t : String) : ∀ (msgs : List ThroughputMsg)
    (acc : List (String × BrokerThroughputResponse)),
    buildMap t (msgs.map (tenantView t)) acc = buildMap t msgs acc := by
  intro msgs
  induction msgs with
  | nil => intro acc; rfl
  | cons m rest ih =>
    intro acc
    cases hd : m.Data with
    | none => simp [buildMap, tenantView, hd]
    | some bt =>
      simp only [List.map_cons, buildMap, tenantView, hd, Option.map_some']
      rw [ih]
      rw [upsertSample_congr t m.Time
        { Name := bt.Name, ReadMap := [(t, mapGet bt.ReadMap t)],
          WriteMap := [(t, mapGet bt.WriteMap t)] } bt rfl
        (mapGet_single t (mapGet bt.ReadMap t))
        (mapGet_single t (mapGet bt.WriteMap t)) acc]

theorem aggregateThroughputs_tenantView (W : Nat) (t : String)
    (msgs : List ThroughputMsg) :
    aggregateThroughputs W t (msgs.map (tenantView t)) = aggregateThroughputs W t msgs := by
  simp only [aggregateThroughputs, insertionSort_map_tenantView,
    buildMap_map_tenantView]

/-- C6: `GetBrokersThroughputs`'s aggregation for tenant `t` depends only on
the tenant-`t` view of the fetched samples — broker names, timestamps and the
map entries under `t` — never on other tenants' entries; and a sample whose
map lacks an entry for `t` contributes the zero value. -/
theorem getBrokersThroughputs_tenant_noninterference (W : Nat) (t : String)
    (msgs1 msgs2 : List ThroughputMsg)
    (h : msgs1.map (tenantView t) = msgs2.map (tenantView t)) :
    aggregateThroughputs W t msgs1 = aggregateThroughputs W t msgs2
    ∧ ∀ m : List (String × Int), (∀ p ∈ m, p.1 ≠ t) → mapGet m t = 0 := by
  constructor
  · rw [← aggregateThroughputs_tenantView W t msgs1, h,
      aggregateThroughputs_tenantView W t msgs2]
  · intro m hm
    have hfind : m.find? (fun p => p.1 == t) = none := by
      rw [List.find?_eq_none]
      intro p hp
      simpa using hm p hp
    simp [mapGet, hfind]

/-- Witness for C6: two sample sets differing only in another tenant's map
entry aggregate identically for tenant `t`. -/
theorem getBrokersThroughputs_tenant_noninterference_witness :
    aggregateThroughputs 2 "t"
        [{ Subject := "a", Sequence := 1, Time := 5,
           Data := some { Name := "b1", ReadMap := [("t", 4), ("u", 99)],
                          WriteMap := [("t", 6)] } }]
      = aggregateThroughputs 2 "t"
        [{ Subject := "b", Sequence := 2, Time := 5,
           Data := some { Name := "b1", ReadMap := [("t", 4)],
                          WriteMap := [("t", 6), ("u", 77)] } }]
    ∧ ∀ m : List (String × Int), (∀ p ∈ m, p.1 ≠ "t") → mapGet m "t" = 0 :=
  getBrokersThroughputs_tenant_noninterference 2 "t" _ _ rfl

theorem sorted_perm_distinct_eq {δ : Type} : ∀ (l1 l2 : List (StoredMsg δ)),
    l1.Perm l2 → l1.Sorted timeLe → l2.Sorted timeLe →
    l1.Pairwise (fun a b => a.Time ≠ b.Time) → l1 = l2 := by
  intro l1
  induction l1 with
  | nil =>
    intro l2 hp _ _ _
    exact (hp.symm.eq_nil).symm
  | cons a t1 ih =>
    intro l2 hp hs1 hs2 hd
    cases l2 with
    | nil => exact absurd hp.eq_nil (by simp)
    | cons b t2 =>
      by_cases hab : a = b
      · subst hab
        have hp2 : t1.Perm t2 := hp.cons_inv
        rw [ih t2 hp2 hs1.of_cons hs2.of_cons (List.Pairwise.of_cons hd)]
      · exfalso
        have hmem_a : a ∈ b :: t2 := hp.mem_iff.1 (by simp)
        have hmem_b : b ∈ a :: t1 := hp.mem_iff.2 (by simp)
        have ha2 : a ∈ t2 := by
          cases hmem_a with
          | head => exact absurd rfl hab
          | tail _ hmem => exact hmem
        have hb1 : b ∈ t1 := by
          cases hmem_b with
          | head => exact absurd rfl (fun hx => hab hx.symm)
          | tail _ hmem => exact hmem
        have h1 : timeLe a b := List.rel_of_sorted_cons hs1 b hb1
        have h2 : timeLe b a := List.rel_of_sorted_cons hs2 a ha2
        have heq : a.Time = b.Time := Nat.le_antisymm h1 h2
        exact (List.pairwise_cons.1 hd).1 b hb1 heq

/-- C9 (amended): when the fetched samples' timestamps are pairwise
distinct, `GetBrokersThroughputs`'s aggregation is invariant under any
permutation of the fetched messages — the result is identical, rows
included.  (With tied timestamps the invariance fails; see the
counterexample.) -/
theorem aggregateThroughputs_perm_invariant_distinct_times (W : Nat) (t : String)
    (msgs1 msgs2 : List ThroughputMsg) (hp : msgs1.Perm msgs2)
    (hd : msgs1.Pairwise (fun a b => a.Time ≠ b.Time)) :
    aggregateThroughputs W t msgs1 = aggregateThroughputs W t msgs2 := by
  have hsorteq : List.insertionSort timeLe msgs1 = List.insertionSort timeLe msgs2 := by
    apply sorted_perm_distinct_eq
    · exact (List.perm_insertionSort timeLe msgs1).trans
        (hp.trans (List.perm_insertionSort timeLe msgs2).symm)
    · exact List.sorted_insertionSort timeLe msgs1
    · exact List.sorted_insertionSort timeLe msgs2
    · exact ((List.perm_insertionSort timeLe msgs1).pairwise_iff
        (fun hab hba => hab hba.symm)).2 hd
  simp only [aggregateThroughputs, hsorteq]

/-- Witness for the amended C9: a two-element permutation with distinct
timestamps. -/
theorem aggregateThroughputs_perm_invariant_distinct_times_witness :
    aggregateThroughputs 2 "t"
        [{ Subject := "s", Sequence := 1, Time := 1,
           Data := some { Name := "b1", ReadMap := [("t", 10)], WriteMap := [("t", 1)] } },
         { Subject := "s", Sequence := 2, Time := 2,
           Data := some { Name := "b1", ReadMap := [("t", 5)], WriteMap := [("t", 2)] } }]
      = aggregateThroughputs 2 "t"
        [{ Subject := "s", Sequence := 2, Time := 2,
           Data := some { Name := "b1", ReadMap := [("t", 5)], WriteMap := [("t", 2)] } },
         { Subject := "s", Sequence := 1, Time := 1,
           Data := some { Name := "b1", ReadMap := [("t", 10)], WriteMap := [("t", 1)] } }] :=
  aggregateThroughputs_perm_invariant_distinct_times 2 "t" _ _ (by decide) (by decide)

/-- C9 counterexample: two samples of the same broker with equal timestamps.
Swapping the fetched order is a permutation, yet the aggregation results
differ and are not even permutations of each other — the per-broker series
and the `total` row both change. -/
theorem aggregateThroughputs_not_order_invariant :
    ([{ Subject := "s", Sequence := 1, Time := 7,
        Data := some { Name := "b1", ReadMap := [("t", 10)], WriteMap := [("t", 1)] } },
      { Subject := "s", Sequence := 2, Time := 7,
        Data := some { Name := "b1", ReadMap := [("t", 5)], WriteMap := [("t", 2)] } }]
      : List ThroughputMsg).Perm
      [{ Subject := "s", Sequence := 2, Time := 7,
         Data := some { Name := "b1", ReadMap := [("t", 5)], WriteMap := [("t", 2)] } },
       { Subject := "s", Sequence := 1, Time := 7,
         Data := some { Name := "b1", ReadMap := [("t", 10)], WriteMap := [("t", 1)] } }]
    ∧ aggregateThroughputs 2 "t"
        [{ Subject := "s", Sequence := 1, Time := 7,
           Data := some { Name := "b1", ReadMap := [("t", 10)], WriteMap := [("t", 1)] } },
         { Subject := "s", Sequence := 2, Time := 7,
           Data := some { Name := "b1", ReadMap := [("t", 5)], WriteMap := [("t", 2)] } }]
      = some (.ok
          [{ Name := "total",
             Read := [{ Timestamp := 7, Read := 10 }, { Timestamp := 7, Read := 5 }],
             Write := [{ Timestamp := 7, Write := 1 }, { Timestamp := 7, Write := 2 }] },
           { Name := "b1",
             Read := [{ Timestamp := 7, Read := 10 }, { Timestamp := 7, Read := 5 }],
             Write := [{ Timestamp := 7, Write := 1 }, { Timestamp := 7, Write := 2 }] }])
    ∧ aggregateThroughputs 2 "t"
        [{ Subject := "s", Sequence := 2, Time := 7,
           Data := some { Name := "b1", ReadMap := [("t", 5)], WriteMap := [("t", 2)] } },
         { Subject := "s", Sequence := 1, Time := 7,
           Data := some { Name := "b1", ReadMap := [("t", 10)], WriteMap := [("t", 1)] } }]
      = some (.ok
          [{ Name := "total",
             Read := [{ Timestamp := 7, Read := 5 }, { Timestamp := 7, Read := 10 }],
             Write := [{ Timestamp := 7, Write := 2 }, { Timestamp := 7, Write := 1 }] },
           { Name := "b1",
             Read := [{ Timestamp := 7, Read := 5 }, { Timestamp := 7, Read := 10 }],
             Write := [{ Timestamp := 7, Write := 2 }, { Timestamp := 7, Write := 1 }] }])
    ∧ ¬ ([{ Name := "total",
            Read := [{ Timestamp := 7, Read := 10 }, { Timestamp := 7, Read := 5 }],
            Write := [{ Timestamp := 7, Write := 1 }, { Timestamp := 7, Write := 2 }] },
          { Name := "b1",
            Read := [{ Timestamp := 7, Read := 10 }, { Timestamp := 7, Read := 5 }],
            Write := [{ Timestamp := 7, Write := 1 }, { Timestamp := 7, Write := 2 }] }]
          : List BrokerThroughputResponse).Perm
         [{ Name := "total",
            Read := [{ Timestamp := 7, Read := 5 }, { Timestamp := 7, Read := 10 }],
            Write := [{ Timestamp := 7, Write := 2 }, { Timestamp := 7, Write := 1 }] },
          { Name := "b1",
            Read := [{ Timestamp := 7, Read := 5 }, { Timestamp := 7, Read := 10 }],
            Write := [{ Timestamp := 7, Write := 2 }, { Timestamp := 7, Write := 1 }] }] :=
  ⟨by decide, rfl, rfl, by decide⟩

/-- C7: a fired timer is never surfaced as an error.  For
`GetBrokersThroughputs`: when fewer messages than requested arrive before the
timer (and the arrived ones aggregate cleanly), the run performs the normal
cleanup and returns the aggregation of exactly the received prefix with a nil
error.  For `GetSystemLogs`: when the timer fires and the refetch condition
does not hold, the attempt returns the processed received records with a nil
error. -/
theorem timeout_is_not_an_error :
    (∀ (W : Nat) (tenant : String) (env : ThroughputEnv) (st : StreamState)
      (out : List BrokerThroughputResponse),
      env.streamInfo = .ok st → env.addConsumerErr = none → env.subscribeErr = none →
      env.arrivals.length < st.Msgs →
      aggregateThroughputs W tenant (env.arrivals.take st.Msgs) = some (.ok out) →
      GetBrokersThroughputs W tenant env
        = (some (.ok out),
           { consumerCreated := true, unsubscribed := true, removeScheduledAfterMs := some 500 }))
    ∧ (∀ (env : LogsEnv) (st : StreamState) (fuel k a0 L0 S A L : Nat)
      (fL g : Bool) (logs : List Log),
      env.streamInfo = .ok st → env.addConsumerErr k = none → env.subscribeErr k = none →
      computeStartAmount st a0 L0 fL g = (S, A, L) →
      ((env.arrivals k).take A).length < A →
      ¬ (st.Msgs > A ∧ st.FirstSeq < S) →
      postprocessLogs g ((env.arrivals k).take A) = some logs →
      GetSystemLogs env (fuel + 1) k a0 fL L0 g
        = (.ok logs,
           [{ consumerCreated := true, unsubscribed := true, removeScheduledAfterMs := some 500 }])) := by
  constructor
  · intro W tenant env st out hsi hac hsub _htimer hagg
    simp only [GetBrokersThroughputs, hsi, hac, hsub, hagg]
  · intro env st fuel k a0 L0 S A L fL g logs hsi hac hsub hcs htimer hnoref hpp
    simp only [GetSystemLogs, hsi, hac, hsub, hcs]
    rw [if_neg (by
      intro hcond
      exact hnoref ⟨hcond.2.1, hcond.2.2⟩)]
    rw [hpp]

/-- Witness for C7: a throughput run receiving 1 of 2 expected messages, and
a logs run receiving 0 of 2 with the refetch condition false. -/
theorem timeout_is_not_an_error_witness :
    GetBrokersThroughputs 2 "t"
        ⟨.ok ⟨2, 1, 2⟩, none, none,
         [{ Subject := "s", Sequence := 1, Time := 4,
            Data := some { Name := "b1", ReadMap := [("t", 3)], WriteMap := [("t", 9)] } }]⟩
      = (some (.ok
          [{ Name := "total",
             Read := [{ Timestamp := 4, Read := 3 }, { Timestamp := 0, Read := 0 }],
             Write := [{ Timestamp := 4, Write := 9 }, { Timestamp := 0, Write := 0 }] },
           { Name := "b1", Read := [{ Timestamp := 4, Read := 3 }],
             Write := [{ Timestamp := 4, Write := 9 }] }]),
         { consumerCreated := true, unsubscribed := true, removeScheduledAfterMs := some 500 })
    ∧ GetSystemLogs ⟨.ok ⟨5, 1, 5⟩, fun _ => none, fun _ => none, fun _ => []⟩ 1 0 3 false 2 false
      = (.ok [],
         [{ consumerCreated := true, unsubscribed := true, removeScheduledAfterMs := some 500 }]) :=
  ⟨timeout_is_not_an_error.1 2 "t" _ ⟨2, 1, 2⟩ _ rfl rfl rfl (by decide) rfl,
   timeout_is_not_an_error.2 _ ⟨5, 1, 5⟩ 0 0 3 2 1 2 2 false false [] rfl rfl rfl rfl
     (by decide) (by decide) rfl⟩

theorem computeStartAmount_getAll (st : StreamState) (a0 L0 : Nat) (fL : Bool) :
    computeStartAmount st a0 L0 fL true = (st.FirstSeq, st.Msgs, L0) := by
  simp [computeStartAmount]

theorem computeStartAmount_other_ge (st : StreamState) (a0 L0 : Nat)
    (h : L0 ≤ min st.Msgs a0) :
    computeStartAmount st a0 L0 false false = (1, L0, L0) := by
  simp [computeStartAmount, h]

theorem computeStartAmount_other_lt (st : StreamState) (a0 L0 : Nat)
    (h : ¬ L0 ≤ min st.Msgs a0) :
    computeStartAmount st a0 L0 false false
      = ((u64Sub L0 (min st.Msgs a0) + 1) % U64, min st.Msgs a0, L0) := by
  simp [computeStartAmount, h]

/-- C4 counterexample: with a 100-message stream, a requested amount of 10
and no messages arriving before the timer on any attempt, the refetch
recursion of `GetSystemLogs` runs four times (five attempts in all), not at
most once; the run completes normally (not by fuel exhaustion). -/
theorem getSystemLogs_refetch_more_than_once :
    GetSystemLogs ⟨.ok ⟨100, 1, 100⟩, fun _ => none, fun _ => none, fun _ => []⟩
        10 0 10 false 100 false
      = (.ok [], List.replicate 5
          { consumerCreated := true, unsubscribed := true, removeScheduledAfterMs := some 500 }) :=
  rfl

/-- C4 (amended): the adaptive refetch is a recursion, not a single retry —
it can run many times (see the counterexample) — but it terminates: each
refetch doubles the capped amount, so for any stream state with
`firstSeq ≥ 1` and a message count below `2^63`, every run completes within
`msgs + 2` attempts (fuel `msgs + 2` is never exhausted), bounding the number
of refetches by `msgs + 1`. -/
theorem getSystemLogs_refetch_terminates (env : LogsEnv) (st : StreamState)
    (hsi : env.streamInfo = .ok st) (hfs : 1 ≤ st.FirstSeq) (hm : st.Msgs < 2 ^ 63) :
    ∀ (fuel k a0 L0 : Nat) (fL g : Bool),
    st.Msgs + 2 ≤ fuel →
    (GetSystemLogs env fuel k a0 fL L0 g).1 ≠ LogsResult.fuelOut := by
  have key : ∀ (fuel k a0 L0 : Nat) (fL g : Bool),
      ((1 ≤ fuel ∧ ¬(st.Msgs > (computeStartAmount st a0 L0 fL g).2.1
          ∧ st.FirstSeq < (computeStartAmount st a0 L0 fL g).1))
        ∨ 2 + (st.Msgs - (computeStartAmount st a0 L0 fL g).2.1) ≤ fuel) →
      (GetSystemLogs env fuel k a0 fL L0 g).1 ≠ LogsResult.fuelOut := by
    intro fuel
    induction fuel with
    | zero =>
      intro k a0 L0 fL g hdisj
      rcases hdisj with ⟨h1, _⟩ | h2
      · omega
      · omega
    | succ f ih =>
      intro k a0 L0 fL g hdisj
      simp only [GetSystemLogs, hsi]
      generalize hsal : computeStartAmount st a0 L0 fL g = sal
      rw [hsal] at hdisj
      obtain ⟨S, A, L⟩ := sal
      simp only at hdisj ⊢
      cases hac : env.addConsumerErr k with
      | some e => simp
      | none =>
        cases hsub : env.subscribeErr k with
        | some e => simp
        | none =>
          by_cases hcond : ((env.arrivals k).take A).length < A
              ∧ st.Msgs > A ∧ st.FirstSeq < S
          · rw [if_pos hcond]
            have hA1 : 1 ≤ A := by
              have := hcond.1
              omega
            have hAM : A < st.Msgs := hcond.2.1
            have hfuel : 2 + (st.Msgs - A) ≤ f + 1 := by
              rcases hdisj with ⟨_, hno⟩ | h2
              · exact absurd ⟨hcond.2.1, hcond.2.2⟩ hno
              · exact h2
            have h2A : (2 * A) % U64 = 2 * A := by
              apply Nat.mod_eq_of_lt
              unfold U64
              omega
            dsimp only
            rw [h2A]
            apply ih (k + 1) (2 * A) L false g
            cases g with
            | true =>
              left
              rw [computeStartAmount_getAll]
              exact ⟨by omega, by simp⟩
            | false =>
              by_cases hcap : L ≤ min st.Msgs (2 * A)
              · left
                rw [computeStartAmount_other_ge st (2 * A) L hcap]
                dsimp only
                exact ⟨by omega, by intro hbad; omega⟩
              · rw [computeStartAmount_other_lt st (2 * A) L hcap]
                dsimp only
                by_cases hms : st.Msgs ≤ 2 * A
                · left
                  have hmin : min st.Msgs (2 * A) = st.Msgs := by omega
                  rw [hmin]
                  exact ⟨by omega, by intro hbad; omega⟩
                · right
                  have hmin : min st.Msgs (2 * A) = 2 * A := by omega
                  rw [hmin]
                  omega
          · rw [if_neg hcond]
            cases hpp : postprocessLogs g ((env.arrivals k).take A) <;> simp [hpp]
  intro fuel k a0 L0 fL g hfuel
  apply key
  right
  omega

/-- Witness for the amended C4: the counterexample's run, with fuel
`msgs + 2 = 102`, completes without exhausting the fuel. -/
theorem getSystemLogs_refetch_terminates_witness :
    (GetSystemLogs ⟨.ok ⟨100, 1, 100⟩, fun _ => none, fun _ => none, fun _ => []⟩
        102 0 10 false 100 false).1 ≠ LogsResult.fuelOut :=
  getSystemLogs_refetch_terminates
    ⟨.ok ⟨100, 1, 100⟩, fun _ => none, fun _ => none, fun _ => []⟩ ⟨100, 1, 100⟩
    rfl (by decide) (by decide) 102 0 10 100 false false (by decide)

end Memphis
